import Mathlib

/-!
Verification development for the `commerce-cif-graphql-integration-reference`
repository, centred on `src/actions/common/ProductsLoader.js`.

The development shallowly embeds:

* the `ProductsLoader.__searchProducts` method (its branch structure,
  truthiness tests, row filtering, row-to-record mapping, and the
  JavaScript exceptions it can raise),
* the `loadingFunction` / `cacheKeyFunction` pair given to the `dataloader`
  instance in the constructor, and
* the batch/cache delivery contract of the external `dataloader` library
  (modelled from the spec, since the library is not part of this repository).

JavaScript dynamic values that matter here are modelled explicitly:
spreadsheet cells are strings, a missing cell (`row[i]` out of range) is
`undefined`, and a thrown `TypeError` or a rejected backend promise is an
`Except.error`.
-/

/-- A JavaScript value as it can appear in a produced product record:
a string cell, a number, or `undefined` (missing cell). -/
inductive JSValue where
  | str (s : String)
  | num (q : Rat)
  | undefJS
  deriving DecidableEq, Repr

/-- `true` exactly on JavaScript numbers. -/
def JSValue.isNum : JSValue → Bool
  | .num _ => true
  | _ => false

/-- String interpolation of a JavaScript value inside a template literal
(`undefined` prints as "undefined"). -/
def JSValue.template : JSValue → String
  | .str s => s
  | .num q => toString q
  | .undefJS => "undefined"

/-- A spreadsheet row: the ordered cells of range `C2:G`
(identifier, title, unused, price, image). Trailing cells may be absent. -/
abbrev Row : Type := List String

/-- `row[i]` in JavaScript: the cell if present, `undefined` otherwise. -/
def jsCell (r : Row) (i : Nat) : JSValue :=
  match List.get? (α := String) r i with
  | some s => .str s
  | none => .undefJS

/-- The `price` object built by `__searchProducts`:
`{ currency: 'USD', amount: product[3] }`. -/
structure Price where
  currency : String
  amount : JSValue
  deriving DecidableEq, Repr

/-- The product record object literal built by `__searchProducts`. -/
structure ProductRecord where
  sku : JSValue
  title : JSValue
  description : String
  price : Price
  image_url : JSValue
  categoryIds : List Nat
  deriving DecidableEq, Repr

/-- The row-to-record mapping used (identically) by all three result
branches of `__searchProducts`. -/
def rowToProduct (r : Row) : ProductRecord :=
  { sku := jsCell r 0
    title := jsCell r 1
    description := "Description for product " ++ (jsCell r 1).template
    price := { currency := "USD", amount := jsCell r 3 }
    image_url := jsCell r 4
    categoryIds := [1, 2] }

/-- The result object of `__searchProducts`:
`{ total, offset, limit, products }`. -/
structure SearchResult where
  total : Nat
  offset : Int
  limit : Int
  products : List ProductRecord
  deriving DecidableEq, Repr

/-- The `eq` / `in` sub-object of a GraphQL `FilterTypeInput` entry.
Either field may be absent (JavaScript `undefined`). -/
structure EqOrIn where
  eq : Option String := none
  inVals : Option (List String) := none
  deriving DecidableEq, Repr

/-- The `filter` argument: optional `sku` and `url_key` entries. -/
structure KeyFilter where
  sku : Option EqOrIn := none
  url_key : Option EqOrIn := none
  deriving DecidableEq, Repr

/-- The key object passed to `ProductsLoader.load`: the search parameters of
the GraphQL `products` field (field order as listed in the spec's data
model: `search`, `filter`, `categoryId`, `currentPage`, `pageSize`). -/
structure LoadKey where
  search : Option String := none
  filter : Option KeyFilter := none
  categoryId : Option Int := none
  currentPage : Int
  pageSize : Int
  deriving DecidableEq, Repr

/-- JavaScript errors that `__searchProducts` can produce: a `TypeError`
from dereferencing `undefined`, or a rejected backend call. -/
inductive JsErr where
  | typeError
  | backendError
  deriving DecidableEq, Repr

/-- Boolean substring test on `List Char`, structurally recursive so that it
evaluates by kernel reduction (JavaScript `String.prototype.includes`). -/
def isInfixB (needle : List Char) : List Char → Bool
  | [] => needle.isPrefixOf []
  | c :: rest => needle.isPrefixOf (c :: rest) || isInfixB needle rest

/-- `hay.includes(needle)`: case-sensitive substring containment. -/
def includesStr (hay needle : String) : Bool :=
  isInfixB needle.data hay.data

/-- Truthiness of `params.filter.sku && params.filter.sku.eq` (and the
`url_key` analogue): the entry is present and its `eq` is a non-empty
string (the empty string is falsy in JavaScript). -/
def eqTruthy : Option EqOrIn → Bool
  | some e => match e.eq with
    | some s => s != ""
    | none => false
  | none => false

/-- The success payload `{ total, offset, limit, products }` built from a
list of matched rows. -/
def mkResult (p : LoadKey) (ms : List Row) : SearchResult :=
  { total := ms.length
    offset := p.currentPage * p.pageSize
    limit := p.pageSize
    products := ms.map rowToProduct }

/-- The `else if (params.filter.sku.in || params.filter.url_key.in)` body:
`keys` is `params.filter.sku ? params.filter.sku.in : params.filter.url_key.in`;
`keys.includes(row[0])` throws a `TypeError` when `keys` is `undefined` and
the filter callback actually runs (i.e. the table is non-empty). -/
def inBody (table : List Row) (p : LoadKey) (f : KeyFilter) : Except JsErr (Option SearchResult) :=
  let keys? : Option (List String) :=
    match f.sku with
    | some e => e.inVals
    | none => match f.url_key with
      | some u => u.inVals
      | none => none
  match keys? with
  | none =>
    if table.isEmpty then .ok (some (mkResult p []))
    else .error .typeError
  | some ks =>
    .ok (some (mkResult p (table.filter fun row =>
      match List.get? (α := String) row 0 with
      | some v => decide (v ∈ ks)
      | none => false)))

/-- The exact-match lookup value:
`let key = params.filter.sku ? params.filter.sku.eq : params.filter.url_key.eq`.
The ternary tests the *presence* of the `sku` entry, so a `sku` entry
without `eq` shadows a given `url_key.eq` and the selected value is
`undefined` (`none`). -/
def eqKeySel (f : KeyFilter) : Option String :=
  match f.sku with
  | some e => e.eq
  | none =>
    match f.url_key with
    | some u => u.eq
    | none => none

/-- The `else if (params.filter && (params.filter.sku || params.filter.url_key))`
branch of `__searchProducts`, including the unguarded accesses
`params.filter.sku.in` / `params.filter.url_key.in` that throw a
`TypeError` when the probed entry is `undefined`. Falling off the end of
the method resolves with `undefined`, modelled as `.ok none`. -/
def filterBody (table : List Row) (p : LoadKey) : Except JsErr (Option SearchResult) :=
  match p.filter with
  | none => .ok none
  | some f =>
    if f.sku.isNone && f.url_key.isNone then
      -- `params.filter && (params.filter.sku || params.filter.url_key)` is falsy
      .ok none
    else if eqTruthy f.sku || eqTruthy f.url_key then
      -- `response.data.values.find(row => row[0] === key)`; `row[0] === undefined`
      -- holds exactly for rows with no first cell
      match table.find? (fun row => decide (List.get? (α := String) row 0 = eqKeySel f)) with
      | some row => .ok (some { total := 1
                                offset := p.currentPage * p.pageSize
                                limit := p.pageSize
                                products := [rowToProduct row] })
      | none =>
        -- `product` is `undefined`; `product[0]` throws a TypeError
        .error .typeError
    else
      -- `else if (params.filter.sku.in || params.filter.url_key.in)`
      match f.sku with
      | none => .error .typeError   -- reading `.in` of `undefined` throws
      | some e =>
        match e.inVals with
        | some _ => inBody table p f
        | none =>
          match f.url_key with
          | none => .error .typeError  -- reading `.in` of `undefined` throws
          | some u =>
            match u.inVals with
            | some _ => inBody table p f
            | none => .ok none     -- both operands falsy: fall off the method

/-- The body of `__searchProducts` after the backing table has been
fetched: `if (params.search) { ... } else if (params.filter && ...) { ... }`.
In the search branch, `row[1].includes(...)` throws a `TypeError` as soon
as the filter callback reaches a row with no second cell. -/
def searchCore (table : List Row) (p : LoadKey) : Except JsErr (Option SearchResult) :=
  match p.search with
  | some s =>
    if s = "" then filterBody table p   -- the empty string is falsy
    else
      if table.any (fun row => (List.get? (α := String) row 1).isNone) then
        .error .typeError
      else
        .ok (some (mkResult p (table.filter fun row => includesStr (row.getD 1 "") s)))
  | none => filterBody table p

/-- Outcome of the two backend calls awaited by `__searchProducts`
(`getAuthToken`, then `getSpreadSheetValues`).
Modelled from the spec: the backing source is an opaque remote call that
either returns the whole range of rows or fails; the concrete
`googleSheet.js` service is not part of the sources under verification. -/
inductive Backend where
  | ok (table : List Row)
  | tokenFail
  | fetchFail
  deriving DecidableEq, Repr

/-- Count of backend operations performed by one `__searchProducts` call:
token acquisitions and table fetches. -/
structure Trace where
  tokens : Nat
  fetches : Nat
  deriving DecidableEq, Repr

/-- One invocation of `__searchProducts`: awaits the token, then the table
fetch, then runs the in-memory branch logic; returns its outcome together
with the number of backend operations this single call performed. -/
def searchProductsRun (b : Backend) (p : LoadKey) : Except JsErr (Option SearchResult) × Trace :=
  match b with
  | .tokenFail => (.error .backendError, ⟨1, 0⟩)
  | .fetchFail => (.error .backendError, ⟨1, 1⟩)
  | .ok table => (searchCore table p, ⟨1, 1⟩)

/-- The value of the promise returned by `__searchProducts(key, actionParameters)`. -/
def searchProducts (b : Backend) (p : LoadKey) : Except JsErr (Option SearchResult) :=
  (searchProductsRun b p).1

/-- What one caller's `load` promise resolves (or rejects) to. -/
inductive LoadValue where
  | result (r : SearchResult)
  | nullv
  | undefinedv
  deriving DecidableEq, Repr

/-- The value `loadingFunction` produces for one key:
`__searchProducts(key, actionParameters).catch(error => null)`.
A rejection becomes `null`; a resolution passes through (including the
`undefined` of a key that takes no branch). -/
def loadOutcome (b : Backend) (k : LoadKey) : LoadValue :=
  match searchProducts b k with
  | .error _ => .nullv
  | .ok none => .undefinedv
  | .ok (some r) => .result r

/-- `loadingFunction`: `keys => Promise.resolve(keys.map(key => __searchProducts(key, ...).catch(...)))`. -/
def resolverOutputs (b : Backend) (keys : List LoadKey) : List LoadValue :=
  keys.map (loadOutcome b)

/-- Total backend operations performed by one `loadingFunction` invocation
on a batch of keys (each key runs its own `__searchProducts`). -/
def resolverTrace (b : Backend) (keys : List LoadKey) : Trace :=
  keys.foldl (fun acc k => ⟨acc.tokens + (searchProductsRun b k).2.tokens,
                            acc.fetches + (searchProductsRun b k).2.fetches⟩) ⟨0, 0⟩

deriving instance DecidableEq for Except

/-! ### The cache key: `cacheKeyFunction = (key) => JSON.stringify(key, null, 0)`

`JSON.stringify` is part of the JavaScript runtime, not of this repository;
its behaviour on the key objects at hand is modelled from the spec's
description of the CacheKey: a deterministic, insertion-order-preserving
serialization that quotes strings (escaping `"` and `\`), renders integers
in decimal, and omits absent (`undefined`) fields. -/

/-- The decimal digit character for `d < 10`. -/
def digChar (d : Nat) : Char := Char.ofNat (48 + d)

/-- Fuel-driven decimal rendering (most significant digit first),
structurally recursive so it evaluates by kernel reduction. -/
def natCharsAux : Nat → Nat → List Char → List Char
  | 0, _, acc => acc
  | fuel + 1, n, acc =>
    if n < 10 then digChar n :: acc
    else natCharsAux fuel (n / 10) (digChar (n % 10) :: acc)

/-- Decimal rendering of a natural number. -/
def natChars (n : Nat) : List Char := natCharsAux (n + 1) n []

/-- Decimal rendering of an integer (JavaScript number formatting for
integral values). -/
def intChars : Int → List Char
  | .ofNat n => natChars n
  | .negSucc n => '-' :: natChars (n + 1)

/-- JSON string escaping of one character. -/
def qchar (c : Char) : List Char := if c = '"' ∨ c = '\\' then ['\\', c] else [c]

/-- JSON string escaping of a character sequence. -/
def escChars : List Char → List Char
  | [] => []
  | c :: cs => qchar c ++ escChars cs

/-- A JSON string literal: `"` + escaped body + `"`. -/
def qs (s : String) : List Char := '"' :: (escChars s.data ++ ['"'])

/-- The serialized label `"search":`. -/
def labSearch : List Char := ['"', 's', 'e', 'a', 'r', 'c', 'h', '"', ':']

/-- The serialized label `"filter":`. -/
def labFil : List Char := ['"', 'f', 'i', 'l', 't', 'e', 'r', '"', ':']

/-- The serialized label `"categoryId":`. -/
def labCat : List Char := ['"', 'c', 'a', 't', 'e', 'g', 'o', 'r', 'y', 'I', 'd', '"', ':']

/-- The serialized label `"currentPage":`. -/
def labCur : List Char := ['"', 'c', 'u', 'r', 'r', 'e', 'n', 't', 'P', 'a', 'g', 'e', '"', ':']

/-- The serialized label `"pageSize":`. -/
def labPS : List Char := ['"', 'p', 'a', 'g', 'e', 'S', 'i', 'z', 'e', '"', ':']

/-- The serialized label `"sku":`. -/
def labSku : List Char := ['"', 's', 'k', 'u', '"', ':']

/-- The serialized label `"url_key":`. -/
def labUrl : List Char := ['"', 'u', 'r', 'l', '_', 'k', 'e', 'y', '"', ':']

/-- The serialized label `"eq":`. -/
def labEq : List Char := ['"', 'e', 'q', '"', ':']

/-- The serialized label `"in":`. -/
def labIn : List Char := ['"', 'i', 'n', '"', ':']

/-- Tail of a serialized JSON array of strings (after the first element). -/
def strListTail : List String → List Char
  | [] => [']']
  | s :: t => ',' :: (qs s ++ strListTail t)

/-- A serialized JSON array of strings. -/
def strListChars : List String → List Char
  | [] => ['[', ']']
  | s :: t => '[' :: (qs s ++ strListTail t)

/-- Serialization of an `eq`/`in` entry object. -/
def eqOrInChars (e : EqOrIn) : List Char :=
  '{' :: ((match e.eq, e.inVals with
    | some v, some l => labEq ++ qs v ++ ',' :: (labIn ++ strListChars l)
    | some v, none => labEq ++ qs v
    | none, some l => labIn ++ strListChars l
    | none, none => []) ++ ['}'])

/-- Serialization of a `filter` object. -/
def filterChars (f : KeyFilter) : List Char :=
  '{' :: ((match f.sku, f.url_key with
    | some a, some b => labSku ++ eqOrInChars a ++ ',' :: (labUrl ++ eqOrInChars b)
    | some a, none => labSku ++ eqOrInChars a
    | none, some b => labUrl ++ eqOrInChars b
    | none, none => []) ++ ['}'])

/-- Serialization of the two mandatory fields plus the closing brace. -/
def mandChars (p q : Int) : List Char :=
  labCur ++ (intChars p ++ ',' :: (labPS ++ (intChars q ++ ['}'])))

/-- Optional `categoryId` field, prefixed to the rest of the object body. -/
def optCatChars : Option Int → List Char → List Char
  | none, rest => rest
  | some n, rest => labCat ++ (intChars n ++ ',' :: rest)

/-- Optional `filter` field, prefixed to the rest of the object body. -/
def optFilterChars : Option KeyFilter → List Char → List Char
  | none, rest => rest
  | some f, rest => labFil ++ (filterChars f ++ ',' :: rest)

/-- Optional `search` field, prefixed to the rest of the object body. -/
def optSearchChars : Option String → List Char → List Char
  | none, rest => rest
  | some s, rest => labSearch ++ (qs s ++ ',' :: rest)

/-- `JSON.stringify(key, null, 0)` on a LoadKey object, as a character list. -/
def keyChars (k : LoadKey) : List Char :=
  '{' :: optSearchChars k.search
    (optFilterChars k.filter
      (optCatChars k.categoryId
        (mandChars k.currentPage k.pageSize)))

/-- `cacheKeyFunction`: the custom cache key of the loader,
`(key) => JSON.stringify(key, null, 0)`. -/
def cacheKeyFunction (k : LoadKey) : String := String.mk (keyChars k)

/-! ### A flat JSON object with explicit field order

`JSON.stringify` serializes object fields in insertion order. To state
claims about field *order* (which a fixed Lean structure cannot express),
a flat JavaScript object is modelled as an insertion-ordered association
list of fields holding string or integral-number values. -/

/-- A flat JavaScript object: fields in insertion order, each a string or
an integral number. -/
def FlatObj : Type := List (String × (String ⊕ Int))

/-- One serialized field: `"name":value`. -/
def flatFieldChars : String × (String ⊕ Int) → List Char
  | (n, .inl s) => qs n ++ ':' :: qs s
  | (n, .inr i) => qs n ++ ':' :: intChars i

/-- Tail of a serialized flat object (after the first field). -/
def flatTail : List (String × (String ⊕ Int)) → List Char
  | [] => ['}']
  | f :: t => ',' :: (flatFieldChars f ++ flatTail t)

/-- `JSON.stringify` on a flat object (insertion-order-preserving). -/
def stringifyFlat : FlatObj → String
  | [] => String.mk ['{', '}']
  | f :: t => String.mk ('{' :: (flatFieldChars f ++ flatTail t))

/-! ### The Batch-Cache Loader (the external `dataloader` library) -/

/-- Modelled from the spec: the batch assembled by the Batch-Cache Loader
from the `load` calls of one scheduling tick — the unique keys in
first-occurrence order, deduplicated by their CacheKey. The `dataloader`
library itself is not part of this repository. -/
def batchOf : List LoadKey → List LoadKey
  | [] => []
  | k :: rest =>
    k :: (batchOf rest).filter (fun j => !(decide (cacheKeyFunction j = cacheKeyFunction k)))

/-- The final state of one caller's `load` promise. -/
inductive Delivered where
  | resolved (v : LoadValue)
  | rejected
  deriving DecidableEq, Repr

/-- Modelled from the spec: what the `load(k)` promise of one caller in a
batch settles to. The loader invokes the batch function once on the
deduplicated batch, requires an outcome sequence of the same length in the
same order (positional correspondence; a violation rejects), and settles
each caller with the outcome at its key's position. -/
def deliver (b : Backend) (calls : List LoadKey) (k : LoadKey) : Delivered :=
  let batch := batchOf calls
  let outs := resolverOutputs b batch
  if outs.length = batch.length then
    match (batch.zip outs).find? (fun ji => decide (cacheKeyFunction ji.1 = cacheKeyFunction k)) with
    | some ji => .resolved ji.2
    | none => .rejected
  else .rejected

/-- Number of table fetches one `__searchProducts` call performs under
backend `b`: the fetch is reached unless token acquisition already failed. -/
def fetchesPerCall : Backend → Nat
  | .tokenFail => 0
  | _ => 1

/-- The demonstration table of the spec's scenarios:
`[["S1","Shirt",_,"19.99","img1"], ["S2","Shoe",_,"49.99","img2"]]`. -/
def demoTable : List Row :=
  [["S1", "Shirt", "x", "19.99", "img1"], ["S2", "Shoe", "x", "49.99", "img2"]]

example : searchProducts (.ok demoTable)
    { search := some "Sh", currentPage := 0, pageSize := 10 } =
  .ok (some { total := 2, offset := 0, limit := 10,
              products := [rowToProduct ["S1", "Shirt", "x", "19.99", "img1"],
                           rowToProduct ["S2", "Shoe", "x", "49.99", "img2"]] }) := by decide

example : searchProducts (.ok demoTable)
    { filter := some { sku := some { eq := some "S2" } }, currentPage := 0, pageSize := 10 } =
  .ok (some { total := 1, offset := 0, limit := 10,
              products := [rowToProduct ["S2", "Shoe", "x", "49.99", "img2"]] }) := by decide

example : searchProducts (.ok demoTable)
    { filter := some { sku := some { eq := some "UNKNOWN" } }, currentPage := 0, pageSize := 10 } =
  .error .typeError := by decide

example : searchProducts (.ok demoTable)
    { filter := some { sku := some { inVals := some ["S1", "S2"] } }, currentPage := 0, pageSize := 5 } =
  .ok (some { total := 2, offset := 0, limit := 5,
              products := [rowToProduct ["S1", "Shirt", "x", "19.99", "img1"],
                           rowToProduct ["S2", "Shoe", "x", "49.99", "img2"]] }) := by decide

-- `filter.url_key.in` alone: the guard `params.filter.sku.in` throws
example : searchProducts (.ok demoTable)
    { filter := some { url_key := some { inVals := some ["S1"] } }, currentPage := 0, pageSize := 10 } =
  .error .typeError := by decide

-- a key with neither `search` nor a recognized filter resolves with `undefined`
example : loadOutcome (.ok demoTable) { currentPage := 0, pageSize := 10 } = .undefinedv := by decide

example : loadOutcome .tokenFail { search := some "Sh", currentPage := 0, pageSize := 10 } = .nullv := by decide

-- serialization sanity: the structured key and the ordered flat object agree
example : cacheKeyFunction { search := some "Sh", currentPage := 0, pageSize := 10 } =
    stringifyFlat [("search", .inl "Sh"), ("currentPage", .inr 0), ("pageSize", .inr 10)] := by decide

-- field order changes the serialization
example : stringifyFlat [("currentPage", .inr 0), ("search", .inl "Sh"), ("pageSize", .inr 10)] ≠
    stringifyFlat [("search", .inl "Sh"), ("currentPage", .inr 0), ("pageSize", .inr 10)] := by decide

example : cacheKeyFunction { search := some "Sh", currentPage := 0, pageSize := 10 } ≠
    cacheKeyFunction { search := some "Sh", currentPage := 0, pageSize := 11 } := by decide

example : cacheKeyFunction { currentPage := -3, pageSize := 1234 } ≠
    cacheKeyFunction { currentPage := 3, pageSize := 1234 } := by decide

example :
    batchOf [{ search := some "Sh", currentPage := 0, pageSize := 10 },
             { search := some "Sh", currentPage := 0, pageSize := 10 },
             { currentPage := 0, pageSize := 10 }] =
    [{ search := some "Sh", currentPage := 0, pageSize := 10 },
     { currentPage := 0, pageSize := 10 }] := by decide

example :
    deliver (.ok demoTable)
      [{ search := some "Sh", currentPage := 0, pageSize := 10 },
       { search := some "Sh", currentPage := 0, pageSize := 10 }]
      ({ search := some "Sh", currentPage := 0, pageSize := 10 }) =
    .resolved (.result
      { total := 2, offset := 0, limit := 10,
        products := [rowToProduct ["S1", "Shirt", "x", "19.99", "img1"],
                     rowToProduct ["S2", "Shoe", "x", "49.99", "img2"]] }) := by decide

example :
    resolverTrace (.ok demoTable)
      [{ search := some "Sh", currentPage := 0, pageSize := 10 },
       { filter := some { sku := some { eq := some "S2" } }, currentPage := 0, pageSize := 10 }] =
    ⟨2, 2⟩ := by decide

/-! ## Injectivity of the cache key serialization -/

theorem digChar_toNat (d : Nat) (h : d < 10) : (digChar d).toNat = 48 + d := by
  interval_cases d <;> decide

theorem digChar_isDigit (d : Nat) (h : d < 10) : (digChar d).isDigit = true := by
  interval_cases d <;> decide

theorem digChar_inj {d1 d2 : Nat} (h1 : d1 < 10) (h2 : d2 < 10)
    (h : digChar d1 = digChar d2) : d1 = d2 := by
  have ht := congrArg Char.toNat h
  rw [digChar_toNat d1 h1, digChar_toNat d2 h2] at ht
  omega

theorem natCharsAux_spec : ∀ (fuel n : Nat) (acc : List Char), 1 ≤ n → n < 10 ^ fuel →
    natCharsAux fuel n acc = ((Nat.digits 10 n).map digChar).reverse ++ acc := by
  intro fuel
  induction fuel with
  | zero =>
    intro n acc h1 h2
    simp at h2
    omega
  | succ fuel ih =>
    intro n acc h1 h2
    simp only [natCharsAux]
    by_cases hlt : n < 10
    · rw [if_pos hlt]
      rw [Nat.digits_def' (by norm_num : (1 : Nat) < 10) (by omega : 0 < n)]
      rw [Nat.mod_eq_of_lt hlt, Nat.div_eq_of_lt hlt]
      simp
    · rw [if_neg hlt]
      have h1' : 1 ≤ n / 10 := Nat.one_le_div_iff (by norm_num) |>.mpr (by omega)
      have h2' : n / 10 < 10 ^ fuel := by
        rw [Nat.div_lt_iff_lt_mul (by norm_num : (0 : Nat) < 10), ← pow_succ]
        exact h2
      rw [ih (n / 10) _ h1' h2']
      rw [Nat.digits_def' (by norm_num : (1 : Nat) < 10) (by omega : 0 < n)]
      simp [List.reverse_cons, List.append_assoc]

theorem natChars_eq (n : Nat) :
    natChars n = if n = 0 then ['0'] else ((Nat.digits 10 n).map digChar).reverse := by
  by_cases h : n = 0
  · subst h
    rw [if_pos rfl]
    decide
  · rw [if_neg h]
    have h1 : 1 ≤ n := by omega
    have h2 : n < 10 ^ (n + 1) := by
      calc n < 10 ^ n := Nat.lt_pow_self (by norm_num) n
      _ ≤ 10 ^ (n + 1) := Nat.pow_le_pow_right (by norm_num) (Nat.le_succ n)
    simpa using natCharsAux_spec (n + 1) n [] h1 h2

theorem natChars_all_digits (n : Nat) : ∀ c ∈ natChars n, c.isDigit = true := by
  rw [natChars_eq]
  by_cases h : n = 0
  · subst h; intro c hc; simp at hc; subst hc; decide
  · rw [if_neg h]
    intro c hc
    rw [List.mem_reverse] at hc
    obtain ⟨d, hd, rfl⟩ := List.mem_map.mp hc
    exact digChar_isDigit d (Nat.digits_lt_base (by norm_num) hd)

theorem natChars_ne_nil (n : Nat) : natChars n ≠ [] := by
  rw [natChars_eq]
  by_cases h : n = 0
  · simp [h]
  · rw [if_neg h]
    simp [Nat.digits_ne_nil_iff_ne_zero.mpr h]

theorem map_digChar_inj : ∀ (l1 l2 : List Nat), (∀ d ∈ l1, d < 10) → (∀ d ∈ l2, d < 10) →
    l1.map digChar = l2.map digChar → l1 = l2 := by
  intro l1
  induction l1 with
  | nil => intro l2 _ _ h; cases l2 <;> simp_all
  | cons a t ih =>
    intro l2 h1 h2 h
    cases l2 with
    | nil => simp_all
    | cons b t2 =>
      simp only [List.map_cons, List.cons.injEq] at h
      have ha : a = b := digChar_inj (h1 a (by simp)) (h2 b (by simp)) h.1
      have ht : t = t2 := ih t2 (fun d hd => h1 d (by simp [hd])) (fun d hd => h2 d (by simp [hd])) h.2
      rw [ha, ht]

theorem natChars_inj {m n : Nat} (h : natChars m = natChars n) : m = n := by
  rw [natChars_eq, natChars_eq] at h
  by_cases hm : m = 0 <;> by_cases hn : n = 0
  · omega
  · rw [if_pos hm, if_neg hn] at h
    have h' : (Nat.digits 10 n).map digChar = ['0'] := by
      have := congrArg List.reverse h
      simpa using this.symm
    have : Nat.digits 10 n = [0] := by
      cases hd : Nat.digits 10 n with
      | nil => rw [hd] at h'; simp at h'
      | cons d t =>
        rw [hd] at h'
        simp only [List.map_cons, List.cons.injEq] at h'
        obtain ⟨h0, ht⟩ := h'
        have hd10 : d < 10 := Nat.digits_lt_base (by norm_num) (by rw [hd]; simp)
        have : d = 0 := digChar_inj hd10 (by norm_num) (by rw [h0]; decide)
        cases t with
        | nil => rw [this]
        | cons => simp at ht
    have := congrArg (Nat.ofDigits 10) this
    rw [Nat.ofDigits_digits] at this
    simp [Nat.ofDigits] at this
    omega
  · rw [if_neg hm, if_pos hn] at h
    have h' : (Nat.digits 10 m).map digChar = ['0'] := by
      have := congrArg List.reverse h
      simpa using this
    have : Nat.digits 10 m = [0] := by
      cases hd : Nat.digits 10 m with
      | nil => rw [hd] at h'; simp at h'
      | cons d t =>
        rw [hd] at h'
        simp only [List.map_cons, List.cons.injEq] at h'
        obtain ⟨h0, ht⟩ := h'
        have hd10 : d < 10 := Nat.digits_lt_base (by norm_num) (by rw [hd]; simp)
        have : d = 0 := digChar_inj hd10 (by norm_num) (by rw [h0]; decide)
        cases t with
        | nil => rw [this]
        | cons => simp at ht
    have := congrArg (Nat.ofDigits 10) this
    rw [Nat.ofDigits_digits] at this
    simp [Nat.ofDigits] at this
    omega
  · rw [if_neg hm, if_neg hn] at h
    have h' := congrArg List.reverse h
    simp only [List.reverse_reverse] at h'
    have := map_digChar_inj (Nat.digits 10 m) (Nat.digits 10 n)
      (fun d hd => Nat.digits_lt_base (by norm_num) hd)
      (fun d hd => Nat.digits_lt_base (by norm_num) hd) h'
    have := congrArg (Nat.ofDigits 10) this
    rwa [Nat.ofDigits_digits, Nat.ofDigits_digits] at this

theorem sepPrefix (P : Char → Bool) : ∀ (l1 l2 r1 r2 : List Char) (c1 c2 : Char),
    (∀ c ∈ l1, P c = true) → (∀ c ∈ l2, P c = true) → P c1 = false → P c2 = false →
    l1 ++ c1 :: r1 = l2 ++ c2 :: r2 → l1 = l2 ∧ c1 :: r1 = c2 :: r2 := by
  intro l1
  induction l1 with
  | nil =>
    intro l2 r1 r2 c1 c2 h1 h2 hc1 hc2 h
    cases l2 with
    | nil => simpa using h
    | cons d t =>
      simp only [List.nil_append, List.cons_append, List.cons.injEq] at h
      have : P d = true := h2 d (by simp)
      rw [← h.1] at this
      rw [this] at hc1
      cases hc1
  | cons a t ih =>
    intro l2 r1 r2 c1 c2 h1 h2 hc1 hc2 h
    cases l2 with
    | nil =>
      simp only [List.nil_append, List.cons_append, List.cons.injEq] at h
      have : P a = true := h1 a (by simp)
      rw [h.1] at this
      rw [this] at hc2
      cases hc2
    | cons d t2 =>
      simp only [List.cons_append, List.cons.injEq] at h
      obtain ⟨rfl, h'⟩ := h
      have := ih t2 r1 r2 c1 c2 (fun c hc => h1 c (by simp [hc]))
        (fun c hc => h2 c (by simp [hc])) hc1 hc2 h'
      exact ⟨by rw [this.1], this.2⟩

theorem natChars_append_inj {m n : Nat} {c1 c2 : Char} {r1 r2 : List Char}
    (hc1 : c1.isDigit = false) (hc2 : c2.isDigit = false)
    (h : natChars m ++ c1 :: r1 = natChars n ++ c2 :: r2) :
    m = n ∧ c1 :: r1 = c2 :: r2 := by
  have := sepPrefix Char.isDigit (natChars m) (natChars n) r1 r2 c1 c2
    (natChars_all_digits m) (natChars_all_digits n) hc1 hc2 h
  exact ⟨natChars_inj this.1, this.2⟩

theorem intChars_append_inj {m n : Int} {c1 c2 : Char} {r1 r2 : List Char}
    (hc1 : c1.isDigit = false) (hc2 : c2.isDigit = false)
    (h : intChars m ++ c1 :: r1 = intChars n ++ c2 :: r2) :
    m = n ∧ c1 :: r1 = c2 :: r2 := by
  cases m with
  | ofNat a =>
    cases n with
    | ofNat b =>
      simp only [intChars] at h
      have := natChars_append_inj hc1 hc2 h
      exact ⟨by rw [this.1], this.2⟩
    | negSucc b =>
      simp only [intChars] at h
      cases ha : natChars a with
      | nil => exact absurd ha (natChars_ne_nil a)
      | cons d dt =>
        rw [ha] at h
        simp only [List.cons_append, List.cons.injEq] at h
        have hd : d.isDigit = true := natChars_all_digits a d (by rw [ha]; simp)
        rw [h.1] at hd
        cases hd
  | negSucc a =>
    cases n with
    | ofNat b =>
      simp only [intChars] at h
      cases hb : natChars b with
      | nil => exact absurd hb (natChars_ne_nil b)
      | cons d dt =>
        rw [hb] at h
        simp only [List.cons_append, List.cons.injEq] at h
        have hd : d.isDigit = true := natChars_all_digits b d (by rw [hb]; simp)
        rw [← h.1] at hd
        cases hd
    | negSucc b =>
      simp only [intChars, List.cons_append, List.cons.injEq] at h
      have := natChars_append_inj hc1 hc2 h.2
      have hab : a = b := by omega
      exact ⟨by rw [hab], this.2⟩

theorem escChars_append_inj : ∀ (s t r1 r2 : List Char),
    escChars s ++ '"' :: r1 = escChars t ++ '"' :: r2 → s = t ∧ r1 = r2 := by
  intro s
  induction s with
  | nil =>
    intro t r1 r2 h
    cases t with
    | nil => simpa using h
    | cons d dt =>
      simp only [escChars, List.nil_append, List.append_assoc] at h
      by_cases hd : d = '"' ∨ d = '\\'
      · rw [qchar, if_pos hd] at h
        simp at h
      · rw [qchar, if_neg hd] at h
        simp only [List.cons_append, List.nil_append, List.cons.injEq] at h
        exact absurd h.1.symm (by tauto)
  | cons a s' ih =>
    intro t r1 r2 h
    cases t with
    | nil =>
      simp only [escChars, List.nil_append, List.append_assoc] at h
      by_cases ha : a = '"' ∨ a = '\\'
      · rw [qchar, if_pos ha] at h
        simp at h
      · rw [qchar, if_neg ha] at h
        simp only [List.cons_append, List.nil_append, List.cons.injEq] at h
        exact absurd h.1 (by tauto)
    | cons d dt =>
      simp only [escChars, List.append_assoc] at h
      by_cases ha : a = '"' ∨ a = '\\' <;> by_cases hd : d = '"' ∨ d = '\\'
      · rw [qchar, if_pos ha, qchar, if_pos hd] at h
        simp only [List.cons_append, List.nil_append, List.cons.injEq] at h
        obtain ⟨-, rfl, h'⟩ := h
        have := ih dt r1 r2 h'
        exact ⟨by rw [this.1], this.2⟩
      · rw [qchar, if_pos ha, qchar, if_neg hd] at h
        simp only [List.cons_append, List.nil_append, List.cons.injEq] at h
        obtain ⟨hda, -⟩ := h
        exact absurd hda.symm (by tauto)
      · rw [qchar, if_neg ha, qchar, if_pos hd] at h
        simp only [List.cons_append, List.nil_append, List.cons.injEq] at h
        obtain ⟨hda, -⟩ := h
        exact absurd hda (by tauto)
      · rw [qchar, if_neg ha, qchar, if_neg hd] at h
        simp only [List.cons_append, List.nil_append, List.cons.injEq] at h
        obtain ⟨rfl, h'⟩ := h
        have := ih dt r1 r2 h'
        exact ⟨by rw [this.1], this.2⟩

theorem qs_append_inj {a b : String} {r1 r2 : List Char}
    (h : qs a ++ r1 = qs b ++ r2) : a = b ∧ r1 = r2 := by
  simp only [qs, List.cons_append, List.append_assoc, List.singleton_append,
    List.cons.injEq, true_and] at h
  have := escChars_append_inj a.data b.data r1 r2 h
  exact ⟨String.ext this.1, this.2⟩

theorem strListTail_append_inj : ∀ (l1 l2 : List String) (r1 r2 : List Char),
    strListTail l1 ++ r1 = strListTail l2 ++ r2 → l1 = l2 ∧ r1 = r2 := by
  intro l1
  induction l1 with
  | nil =>
    intro l2 r1 r2 h
    cases l2 with
    | nil => simpa using h
    | cons s2 t2 => simp [strListTail] at h
  | cons s t ih =>
    intro l2 r1 r2 h
    cases l2 with
    | nil => simp [strListTail] at h
    | cons s2 t2 =>
      simp only [strListTail, List.cons_append, List.append_assoc, List.cons.injEq,
        true_and] at h
      obtain ⟨rfl, h2⟩ := qs_append_inj h
      obtain ⟨rfl, h3⟩ := (ih t2 r1 r2 h2).imp id id
      exact ⟨rfl, h3⟩

theorem strListChars_append_inj : ∀ (l1 l2 : List String) (r1 r2 : List Char),
    strListChars l1 ++ r1 = strListChars l2 ++ r2 → l1 = l2 ∧ r1 = r2 := by
  intro l1 l2 r1 r2 h
  cases l1 with
  | nil =>
    cases l2 with
    | nil => simpa using h
    | cons s2 t2 => simp [strListChars, qs] at h
  | cons s t =>
    cases l2 with
    | nil => simp [strListChars, qs] at h
    | cons s2 t2 =>
      simp only [strListChars, List.cons_append, List.append_assoc, List.cons.injEq,
        true_and] at h
      obtain ⟨rfl, h2⟩ := qs_append_inj h
      obtain ⟨rfl, h3⟩ := (strListTail_append_inj t t2 r1 r2 h2).imp id id
      exact ⟨rfl, h3⟩

theorem eqOrInChars_append_inj (e1 e2 : EqOrIn) (r1 r2 : List Char)
    (h : eqOrInChars e1 ++ r1 = eqOrInChars e2 ++ r2) : e1 = e2 ∧ r1 = r2 := by
  obtain ⟨q1, i1⟩ := e1
  obtain ⟨q2, i2⟩ := e2
  cases q1 with
  | none =>
    cases i1 with
    | none =>
      cases q2 with
      | none =>
        cases i2 with
        | none => simpa [eqOrInChars] using h
        | some l2 => simp [eqOrInChars, labIn, qs] at h
      | some v2 =>
        cases i2 with
        | none => simp [eqOrInChars, labEq, qs] at h
        | some l2 => simp [eqOrInChars, labEq, qs] at h
    | some l1 =>
      cases q2 with
      | none =>
        cases i2 with
        | none => simp [eqOrInChars, labIn, qs] at h
        | some l2 =>
          simp only [eqOrInChars, labIn, List.cons_append, List.append_assoc,
            List.cons.injEq, true_and] at h
          obtain ⟨rfl, h2⟩ := strListChars_append_inj l1 l2 _ _ h
          simp only [List.cons.injEq, true_and] at h2
          exact ⟨rfl, h2⟩
      | some v2 =>
        cases i2 with
        | none => simp [eqOrInChars, labEq, labIn] at h
        | some l2 => simp [eqOrInChars, labEq, labIn] at h
  | some v1 =>
    cases i1 with
    | none =>
      cases q2 with
      | none =>
        cases i2 with
        | none => simp [eqOrInChars, labEq, qs] at h
        | some l2 => simp [eqOrInChars, labEq, labIn] at h
      | some v2 =>
        cases i2 with
        | none =>
          simp only [eqOrInChars, labEq, List.cons_append, List.append_assoc,
            List.cons.injEq, true_and] at h
          obtain ⟨rfl, h2⟩ := qs_append_inj h
          simp only [List.cons.injEq, true_and] at h2
          exact ⟨rfl, h2⟩
        | some l2 =>
          simp only [eqOrInChars, labEq, labIn, List.cons_append, List.append_assoc,
            List.cons.injEq, true_and] at h
          obtain ⟨rfl, h2⟩ := qs_append_inj h
          simp at h2
    | some l1 =>
      cases q2 with
      | none =>
        cases i2 with
        | none => simp [eqOrInChars, labEq, qs] at h
        | some l2 => simp [eqOrInChars, labEq, labIn] at h
      | some v2 =>
        cases i2 with
        | none =>
          simp only [eqOrInChars, labEq, labIn, List.cons_append, List.append_assoc,
            List.cons.injEq, true_and] at h
          obtain ⟨rfl, h2⟩ := qs_append_inj h
          simp at h2
        | some l2 =>
          simp only [eqOrInChars, labEq, labIn, List.cons_append, List.append_assoc,
            List.cons.injEq, true_and] at h
          obtain ⟨rfl, h2⟩ := qs_append_inj h
          simp only [List.cons.injEq, true_and] at h2
          obtain ⟨rfl, h3⟩ := strListChars_append_inj l1 l2 _ _ h2
          simp only [List.cons.injEq, true_and] at h3
          exact ⟨rfl, h3⟩

theorem filterChars_append_inj (f1 f2 : KeyFilter) (r1 r2 : List Char)
    (h : filterChars f1 ++ r1 = filterChars f2 ++ r2) : f1 = f2 ∧ r1 = r2 := by
  obtain ⟨s1, u1⟩ := f1
  obtain ⟨s2, u2⟩ := f2
  cases s1 with
  | none =>
    cases u1 with
    | none =>
      cases s2 with
      | none =>
        cases u2 with
        | none => simpa [filterChars] using h
        | some b2 => simp [filterChars, labUrl] at h
      | some a2 =>
        cases u2 with
        | none => simp [filterChars, labSku] at h
        | some b2 => simp [filterChars, labSku] at h
    | some b1 =>
      cases s2 with
      | none =>
        cases u2 with
        | none => simp [filterChars, labUrl] at h
        | some b2 =>
          simp only [filterChars, labUrl, List.cons_append, List.append_assoc,
            List.cons.injEq, true_and] at h
          obtain ⟨rfl, h2⟩ := eqOrInChars_append_inj b1 b2 _ _ h
          simp only [List.cons.injEq, true_and] at h2
          exact ⟨rfl, h2⟩
      | some a2 =>
        cases u2 with
        | none => simp [filterChars, labSku, labUrl] at h
        | some b2 => simp [filterChars, labSku, labUrl] at h
  | some a1 =>
    cases u1 with
    | none =>
      cases s2 with
      | none =>
        cases u2 with
        | none => simp [filterChars, labSku] at h
        | some b2 => simp [filterChars, labSku, labUrl] at h
      | some a2 =>
        cases u2 with
        | none =>
          simp only [filterChars, labSku, List.cons_append, List.append_assoc,
            List.cons.injEq, true_and] at h
          obtain ⟨rfl, h2⟩ := eqOrInChars_append_inj a1 a2 _ _ h
          simp only [List.cons.injEq, true_and] at h2
          exact ⟨rfl, h2⟩
        | some b2 =>
          simp only [filterChars, labSku, labUrl, List.cons_append, List.append_assoc,
            List.cons.injEq, true_and] at h
          obtain ⟨rfl, h2⟩ := eqOrInChars_append_inj a1 a2 _ _ h
          simp at h2
    | some b1 =>
      cases s2 with
      | none =>
        cases u2 with
        | none => simp [filterChars, labSku] at h
        | some b2 => simp [filterChars, labSku, labUrl] at h
      | some a2 =>
        cases u2 with
        | none =>
          simp only [filterChars, labSku, labUrl, List.cons_append, List.append_assoc,
            List.cons.injEq, true_and] at h
          obtain ⟨rfl, h2⟩ := eqOrInChars_append_inj a1 a2 _ _ h
          simp at h2
        | some b2 =>
          simp only [filterChars, labSku, labUrl, List.cons_append, List.append_assoc,
            List.cons.injEq, true_and] at h
          obtain ⟨rfl, h2⟩ := eqOrInChars_append_inj a1 a2 _ _ h
          simp only [List.cons.injEq, true_and] at h2
          obtain ⟨rfl, h3⟩ := eqOrInChars_append_inj b1 b2 _ _ h2
          simp only [List.cons.injEq, true_and] at h3
          exact ⟨rfl, h3⟩

theorem mandChars_append_inj {p1 q1 p2 q2 : Int} {r1 r2 : List Char}
    (h : mandChars p1 q1 ++ r1 = mandChars p2 q2 ++ r2) :
    p1 = p2 ∧ q1 = q2 ∧ r1 = r2 := by
  simp only [mandChars, labCur, labPS, List.cons_append, List.append_assoc,
    List.cons.injEq, true_and] at h
  obtain ⟨hp, h2⟩ := intChars_append_inj (by decide) (by decide) h
  simp only [List.cons.injEq, true_and] at h2
  obtain ⟨hq, h3⟩ := intChars_append_inj (by decide) (by decide) h2
  simp only [List.cons.injEq, true_and] at h3
  exact ⟨hp, hq, h3⟩

theorem catPart_append_inj {c1 c2 : Option Int} {p1 q1 p2 q2 : Int} {r1 r2 : List Char}
    (h : optCatChars c1 (mandChars p1 q1) ++ r1 = optCatChars c2 (mandChars p2 q2) ++ r2) :
    c1 = c2 ∧ p1 = p2 ∧ q1 = q2 ∧ r1 = r2 := by
  cases c1 with
  | none =>
    cases c2 with
    | none =>
      simp only [optCatChars] at h
      obtain ⟨hp, hq, hr⟩ := mandChars_append_inj h
      exact ⟨rfl, hp, hq, hr⟩
    | some n2 => simp [optCatChars, labCat, mandChars, labCur] at h
  | some n1 =>
    cases c2 with
    | none => simp [optCatChars, labCat, mandChars, labCur] at h
    | some n2 =>
      simp only [optCatChars, labCat, List.cons_append, List.append_assoc,
        List.cons.injEq, true_and] at h
      obtain ⟨hn, h2⟩ := intChars_append_inj (by decide) (by decide) h
      simp only [List.cons.injEq, true_and] at h2
      obtain ⟨hp, hq, hr⟩ := mandChars_append_inj h2
      exact ⟨by rw [hn], hp, hq, hr⟩

theorem filPart_append_inj {f1 f2 : Option KeyFilter} {c1 c2 : Option Int}
    {p1 q1 p2 q2 : Int} {r1 r2 : List Char}
    (h : optFilterChars f1 (optCatChars c1 (mandChars p1 q1)) ++ r1 =
         optFilterChars f2 (optCatChars c2 (mandChars p2 q2)) ++ r2) :
    f1 = f2 ∧ c1 = c2 ∧ p1 = p2 ∧ q1 = q2 ∧ r1 = r2 := by
  cases f1 with
  | none =>
    cases f2 with
    | none =>
      simp only [optFilterChars] at h
      obtain ⟨hc, hp, hq, hr⟩ := catPart_append_inj h
      exact ⟨rfl, hc, hp, hq, hr⟩
    | some g2 =>
      cases c1 with
      | none => simp [optFilterChars, optCatChars, labFil, mandChars, labCur] at h
      | some n1 => simp [optFilterChars, optCatChars, labFil, labCat] at h
  | some g1 =>
    cases f2 with
    | none =>
      cases c2 with
      | none => simp [optFilterChars, optCatChars, labFil, mandChars, labCur] at h
      | some n2 => simp [optFilterChars, optCatChars, labFil, labCat] at h
    | some g2 =>
      simp only [optFilterChars, labFil, List.cons_append, List.append_assoc,
        List.cons.injEq, true_and] at h
      obtain ⟨rfl, h2⟩ := filterChars_append_inj g1 g2 _ _ h
      simp only [List.cons.injEq, true_and] at h2
      obtain ⟨hc, hp, hq, hr⟩ := catPart_append_inj h2
      exact ⟨rfl, hc, hp, hq, hr⟩

theorem searchPart_append_inj {s1 s2 : Option String} {f1 f2 : Option KeyFilter}
    {c1 c2 : Option Int} {p1 q1 p2 q2 : Int} {r1 r2 : List Char}
    (h : optSearchChars s1 (optFilterChars f1 (optCatChars c1 (mandChars p1 q1))) ++ r1 =
         optSearchChars s2 (optFilterChars f2 (optCatChars c2 (mandChars p2 q2))) ++ r2) :
    s1 = s2 ∧ f1 = f2 ∧ c1 = c2 ∧ p1 = p2 ∧ q1 = q2 ∧ r1 = r2 := by
  cases s1 with
  | none =>
    cases s2 with
    | none =>
      simp only [optSearchChars] at h
      obtain ⟨hf, hc, hp, hq, hr⟩ := filPart_append_inj h
      exact ⟨rfl, hf, hc, hp, hq, hr⟩
    | some v2 =>
      cases f1 with
      | none =>
        cases c1 with
        | none => simp [optSearchChars, optFilterChars, optCatChars, labSearch,
            mandChars, labCur] at h
        | some n1 => simp [optSearchChars, optFilterChars, optCatChars, labSearch,
            labCat] at h
      | some g1 => simp [optSearchChars, optFilterChars, labSearch, labFil] at h
  | some v1 =>
    cases s2 with
    | none =>
      cases f2 with
      | none =>
        cases c2 with
        | none => simp [optSearchChars, optFilterChars, optCatChars, labSearch,
            mandChars, labCur] at h
        | some n2 => simp [optSearchChars, optFilterChars, optCatChars, labSearch,
            labCat] at h
      | some g2 => simp [optSearchChars, optFilterChars, labSearch, labFil] at h
    | some v2 =>
      simp only [optSearchChars, labSearch, List.cons_append, List.append_assoc,
        List.cons.injEq, true_and] at h
      obtain ⟨rfl, h2⟩ := qs_append_inj h
      simp only [List.cons.injEq, true_and] at h2
      obtain ⟨hf, hc, hp, hq, hr⟩ := filPart_append_inj h2
      exact ⟨rfl, hf, hc, hp, hq, hr⟩

/-- `cacheKeyFunction` is injective on key objects: equal cache keys come
from field-wise equal keys. -/
theorem cacheKeyFunction_inj {k1 k2 : LoadKey}
    (h : cacheKeyFunction k1 = cacheKeyFunction k2) : k1 = k2 := by
  obtain ⟨s1, f1, c1, p1, q1⟩ := k1
  obtain ⟨s2, f2, c2, p2, q2⟩ := k2
  have hd : keyChars ⟨s1, f1, c1, p1, q1⟩ = keyChars ⟨s2, f2, c2, p2, q2⟩ := by
    have := congrArg String.data h
    simpa [cacheKeyFunction] using this
  simp only [keyChars, List.cons.injEq, true_and] at hd
  have hd' : optSearchChars s1 (optFilterChars f1 (optCatChars c1 (mandChars p1 q1))) ++ [] =
      optSearchChars s2 (optFilterChars f2 (optCatChars c2 (mandChars p2 q2))) ++ [] := by
    simpa using hd
  obtain ⟨hs, hf, hc, hp, hq, -⟩ := searchPart_append_inj hd'
  simp [hs, hf, hc, hp, hq]

/-! ## Lemmas about the Batch-Cache Loader model -/

theorem searchProductsRun_trace (b : Backend) (k : LoadKey) :
    (searchProductsRun b k).2 = ⟨1, fetchesPerCall b⟩ := by
  cases b <;> rfl

theorem resolverTrace_eq (b : Backend) (keys : List LoadKey) :
    resolverTrace b keys = ⟨keys.length, keys.length * fetchesPerCall b⟩ := by
  have aux : ∀ (ks : List LoadKey) (acc : Trace),
      ks.foldl (fun acc k => ⟨acc.tokens + (searchProductsRun b k).2.tokens,
                              acc.fetches + (searchProductsRun b k).2.fetches⟩) acc =
      ⟨acc.tokens + ks.length, acc.fetches + ks.length * fetchesPerCall b⟩ := by
    intro ks
    induction ks with
    | nil => intro acc; simp
    | cons a t ih =>
      intro acc
      rw [List.foldl_cons, ih]
      simp only [searchProductsRun_trace, List.length_cons, Trace.mk.injEq]
      cases b <;> simp only [fetchesPerCall] <;> omega
  have := aux keys ⟨0, 0⟩
  simpa [resolverTrace] using this

theorem ckey_eq_iff {j k : LoadKey} :
    cacheKeyFunction j = cacheKeyFunction k ↔ j = k :=
  ⟨cacheKeyFunction_inj, fun h => by rw [h]⟩

theorem mem_batchOf {k : LoadKey} : ∀ {calls : List LoadKey}, k ∈ calls → k ∈ batchOf calls := by
  intro calls
  induction calls with
  | nil => intro h; simp at h
  | cons a t ih =>
    intro hk
    rcases List.mem_cons.mp hk with rfl | hk'
    · simp [batchOf]
    · by_cases hka : cacheKeyFunction k = cacheKeyFunction a
      · have : k = a := cacheKeyFunction_inj hka
        subst this
        simp [batchOf]
      · simp only [batchOf, List.mem_cons]
        right
        exact List.mem_filter.mpr ⟨ih hk', by simp [hka]⟩

theorem batchOf_count {k : LoadKey} : ∀ {calls : List LoadKey}, k ∈ calls →
    (batchOf calls).countP (fun j => decide (cacheKeyFunction j = cacheKeyFunction k)) = 1 := by
  intro calls
  induction calls with
  | nil => intro h; simp at h
  | cons a t ih =>
    intro hk
    simp only [batchOf, List.countP_cons]
    by_cases hak : a = k
    · subst hak
      rw [if_pos (by simp)]
      have hz : ((batchOf t).filter
          (fun j => !(decide (cacheKeyFunction j = cacheKeyFunction a)))).countP
          (fun j => decide (cacheKeyFunction j = cacheKeyFunction a)) = 0 := by
        rw [List.countP_eq_zero]
        intro x hx
        have := (List.mem_filter.mp hx).2
        simp at this
        simp [this]
      rw [hz]
    · have hck : ¬ (cacheKeyFunction a = cacheKeyFunction k) := fun hc => hak (cacheKeyFunction_inj hc)
      rw [if_neg (by simpa using hck)]
      have hkt : k ∈ t := by
        rcases List.mem_cons.mp hk with rfl | h'
        · exact absurd rfl hak
        · exact h'
      rw [List.countP_filter]
      have hcongr : (batchOf t).countP
          (fun x => decide (cacheKeyFunction x = cacheKeyFunction k) &&
                    !(decide (cacheKeyFunction x = cacheKeyFunction a))) =
          (batchOf t).countP (fun j => decide (cacheKeyFunction j = cacheKeyFunction k)) := by
        apply List.countP_congr
        intro x _
        constructor
        · intro hx
          simp only [Bool.and_eq_true] at hx
          exact hx.1
        · intro hx
          simp only [Bool.and_eq_true]
          refine ⟨hx, ?_⟩
          simp only [decide_eq_true_eq] at hx
          simp only [hx, Bool.not_eq_true', decide_eq_false_iff_not]
          exact fun hc => hck hc.symm
      rw [hcongr, ih hkt]

theorem zip_self_map {α β : Type _} (f : α → β) :
    ∀ l : List α, l.zip (l.map f) = l.map (fun a => (a, f a)) := by
  intro l
  induction l with
  | nil => rfl
  | cons a t ih => simp [ih]

theorem find?_comp_map {α β : Type _} (g : α → β) (p : β → Bool) :
    ∀ l : List α, (l.map g).find? p = (l.find? (fun a => p (g a))).map g := by
  intro l
  induction l with
  | nil => rfl
  | cons a t ih =>
    by_cases h : p (g a)
    · simp [List.find?_cons, h]
    · simp [List.find?_cons, h, ih]

theorem find?_batchOf {k : LoadKey} {calls : List LoadKey} (hk : k ∈ calls) :
    (batchOf calls).find? (fun j => decide (cacheKeyFunction j = cacheKeyFunction k)) = some k := by
  have hmem : k ∈ batchOf calls := mem_batchOf hk
  have hsome : ((batchOf calls).find?
      (fun j => decide (cacheKeyFunction j = cacheKeyFunction k))).isSome :=
    List.find?_isSome.mpr ⟨k, hmem, by simp⟩
  obtain ⟨j, hj⟩ := Option.isSome_iff_exists.mp hsome
  have hpj := List.find?_some hj
  simp only [decide_eq_true_eq] at hpj
  have : j = k := cacheKeyFunction_inj hpj
  rw [hj, this]

theorem deliver_of_mem {b : Backend} {calls : List LoadKey} {k : LoadKey} (hk : k ∈ calls) :
    deliver b calls k = .resolved (loadOutcome b k) := by
  simp only [deliver, resolverOutputs]
  rw [if_pos (List.length_map _ _)]
  rw [zip_self_map, find?_comp_map, find?_batchOf hk]
  rfl

theorem isInfixB_iff (n : List Char) : ∀ h : List Char, isInfixB n h = true ↔ n <:+: h := by
  intro h
  induction h with
  | nil =>
    simp [isInfixB, List.isPrefixOf_iff_prefix]
  | cons c rest ih =>
    simp only [isInfixB, Bool.or_eq_true, List.isPrefixOf_iff_prefix, ih,
      List.infix_cons_iff]

theorem includesStr_iff (hay needle : String) :
    includesStr hay needle = true ↔ needle.data <:+: hay.data :=
  isInfixB_iff needle.data hay.data

/-! ## The claims -/

/-- C1 (counterexample): the claim says one token acquisition and one table
fetch per resolver invocation regardless of the number of keys; on the
two-key batch of the spec's own scenarios the resolver performs two token
acquisitions and two fetches, not one. -/
theorem claim1_counterexample :
    resolverTrace (.ok demoTable)
      (batchOf [{ search := some "Sh", currentPage := 0, pageSize := 10 },
                { filter := some { sku := some { eq := some "S2" } },
                  currentPage := 0, pageSize := 10 }]) =
      { tokens := 2, fetches := 2 } ∧ ¬((2 : Nat) = 1) :=
  ⟨by decide, by decide⟩

/-- C1 (amended): the backend is contacted once per key of the batch, not
once per invocation: a batch of N keys performs N token acquisitions, and
N table fetches whenever token acquisition succeeds (none after a token
failure). -/
theorem claim1_per_key_backend (b : Backend) (keys : List LoadKey) :
    (resolverTrace b keys).tokens = keys.length ∧
    (resolverTrace b keys).fetches = keys.length * fetchesPerCall b ∧
    (b ≠ Backend.tokenFail → (resolverTrace b keys).fetches = keys.length) := by
  refine ⟨by rw [resolverTrace_eq], by rw [resolverTrace_eq], ?_⟩
  intro hb
  rw [resolverTrace_eq]
  cases b with
  | tokenFail => exact absurd rfl hb
  | ok t => simp [fetchesPerCall]
  | fetchFail => simp [fetchesPerCall]

/-- C1 (witness): the amended theorem applied to the demonstration backend
and a concrete two-key batch. -/
theorem claim1_per_key_backend_witness :
    Backend.ok demoTable ≠ Backend.tokenFail ∧
    (resolverTrace (.ok demoTable)
      [{ search := some "Sh", currentPage := 0, pageSize := 10 },
       { currentPage := 0, pageSize := 10 }]).fetches =
    ([({ search := some "Sh", currentPage := 0, pageSize := 10 } : LoadKey),
      { currentPage := 0, pageSize := 10 }] : List LoadKey).length :=
  ⟨by decide,
   (claim1_per_key_backend (.ok demoTable)
     [{ search := some "Sh", currentPage := 0, pageSize := 10 },
      { currentPage := 0, pageSize := 10 }]).2.2 (by decide)⟩

/-- C2 (confirmed): among the load calls of one tick, the batch handed to
the Key Resolver contains exactly one occurrence of a given key's
CacheKey, and every caller whose key has that CacheKey is resolved with
the one shared outcome computed for that key. -/
theorem claim2_dedup (b : Backend) (calls : List LoadKey) (k : LoadKey) (hk : k ∈ calls) :
    (batchOf calls).countP (fun j => decide (cacheKeyFunction j = cacheKeyFunction k)) = 1 ∧
    ∀ k' ∈ calls, cacheKeyFunction k' = cacheKeyFunction k →
      deliver b calls k' = .resolved (loadOutcome b k) := by
  refine ⟨batchOf_count hk, ?_⟩
  intro k' hk' hck
  obtain rfl := cacheKeyFunction_inj hck
  exact deliver_of_mem hk'

/-- C2 (witness): the deduplication theorem applied to two identical
concurrent calls of the spec's search scenario. -/
theorem claim2_dedup_witness :
    ({ search := some "Sh", currentPage := 0, pageSize := 10 } : LoadKey) ∈
      [({ search := some "Sh", currentPage := 0, pageSize := 10 } : LoadKey),
       { search := some "Sh", currentPage := 0, pageSize := 10 }] ∧
    ((batchOf [({ search := some "Sh", currentPage := 0, pageSize := 10 } : LoadKey),
               { search := some "Sh", currentPage := 0, pageSize := 10 }]).countP
        (fun j => decide (cacheKeyFunction j =
          cacheKeyFunction { search := some "Sh", currentPage := 0, pageSize := 10 })) = 1 ∧
      ∀ k' ∈ [({ search := some "Sh", currentPage := 0, pageSize := 10 } : LoadKey),
              { search := some "Sh", currentPage := 0, pageSize := 10 }],
        cacheKeyFunction k' =
          cacheKeyFunction { search := some "Sh", currentPage := 0, pageSize := 10 } →
        deliver (.ok demoTable)
          [({ search := some "Sh", currentPage := 0, pageSize := 10 } : LoadKey),
           { search := some "Sh", currentPage := 0, pageSize := 10 }] k' =
          .resolved (loadOutcome (.ok demoTable)
            { search := some "Sh", currentPage := 0, pageSize := 10 })) :=
  ⟨by decide, claim2_dedup (.ok demoTable) _ _ (by decide)⟩

/-- C3 (counterexample): a malformed key (neither `search` nor a
recognized `filter`) does not surface as the null sentinel: the caller's
promise resolves with `undefined`, which differs from `null`. -/
theorem claim3_counterexample :
    deliver (.ok demoTable) [{ currentPage := 0, pageSize := 10 }]
        { currentPage := 0, pageSize := 10 } = .resolved .undefinedv ∧
    Delivered.resolved .undefinedv ≠ .resolved .nullv :=
  ⟨by decide, by decide⟩

/-- C3 (amended): `load()` never rejects — every caller's promise resolves.
A thrown or rejected resolution (backend unavailable, missing record on an
exact-match lookup) surfaces as the `null` sentinel; a malformed key
surfaces as a resolved `undefined`, not `null`; a successful search result
passes through, and `null` is distinguishable from every successful
SearchResult, including an empty one with total 0. -/
theorem claim3_never_rejects (b : Backend) (calls : List LoadKey) (k : LoadKey)
    (hk : k ∈ calls) :
    deliver b calls k = .resolved (loadOutcome b k) ∧
    (∀ e, searchProducts b k = .error e → loadOutcome b k = .nullv) ∧
    (searchProducts b k = .ok none → loadOutcome b k = .undefinedv) ∧
    (∀ r, searchProducts b k = .ok (some r) → loadOutcome b k = .result r) ∧
    (∀ r : SearchResult, LoadValue.nullv ≠ .result r) := by
  refine ⟨deliver_of_mem hk, ?_, ?_, ?_, fun r h => LoadValue.noConfusion h⟩
  · intro e he; simp [loadOutcome, he]
  · intro he; simp [loadOutcome, he]
  · intro r hr; simp [loadOutcome, hr]

/-- C3 (witness): the amended theorem applied to a failing backend and one
concrete call. -/
theorem claim3_never_rejects_witness :
    ({ search := some "Sh", currentPage := 0, pageSize := 10 } : LoadKey) ∈
      [({ search := some "Sh", currentPage := 0, pageSize := 10 } : LoadKey)] ∧
    (deliver Backend.tokenFail [({ search := some "Sh", currentPage := 0, pageSize := 10 } : LoadKey)]
        { search := some "Sh", currentPage := 0, pageSize := 10 } =
      .resolved (loadOutcome Backend.tokenFail
        { search := some "Sh", currentPage := 0, pageSize := 10 }) ∧
      (∀ e, searchProducts Backend.tokenFail
          { search := some "Sh", currentPage := 0, pageSize := 10 } = .error e →
        loadOutcome Backend.tokenFail
          { search := some "Sh", currentPage := 0, pageSize := 10 } = .nullv) ∧
      (searchProducts Backend.tokenFail
          { search := some "Sh", currentPage := 0, pageSize := 10 } = .ok none →
        loadOutcome Backend.tokenFail
          { search := some "Sh", currentPage := 0, pageSize := 10 } = .undefinedv) ∧
      (∀ r, searchProducts Backend.tokenFail
          { search := some "Sh", currentPage := 0, pageSize := 10 } = .ok (some r) →
        loadOutcome Backend.tokenFail
          { search := some "Sh", currentPage := 0, pageSize := 10 } = .result r) ∧
      (∀ r : SearchResult, LoadValue.nullv ≠ .result r)) :=
  ⟨by decide, claim3_never_rejects Backend.tokenFail _ _ (by decide)⟩

/-- C4 (confirmed): in a batch `[k1, k2]` where `k1` resolves successfully
and `k2`'s resolution fails, `k1`'s caller still receives its correct
SearchResult while `k2`'s caller receives `null`. -/
theorem claim4_failure_isolation (b : Backend) (k1 k2 : LoadKey) (r1 : SearchResult)
    (e : JsErr) (h1 : searchProducts b k1 = .ok (some r1))
    (h2 : searchProducts b k2 = .error e) :
    deliver b [k1, k2] k1 = .resolved (.result r1) ∧
    deliver b [k1, k2] k2 = .resolved .nullv := by
  constructor
  · rw [deliver_of_mem (by simp)]
    simp [loadOutcome, h1]
  · rw [deliver_of_mem (by simp)]
    simp [loadOutcome, h2]

/-- C4 (witness): failure isolation on the demonstration table with a
valid search key and an exact-match key for an unknown identifier. -/
theorem claim4_failure_isolation_witness :
    searchProducts (.ok demoTable) { search := some "Sh", currentPage := 0, pageSize := 10 } =
      .ok (some { total := 2, offset := 0, limit := 10,
                  products := [rowToProduct ["S1", "Shirt", "x", "19.99", "img1"],
                               rowToProduct ["S2", "Shoe", "x", "49.99", "img2"]] }) ∧
    searchProducts (.ok demoTable)
      { filter := some { sku := some { eq := some "UNKNOWN" } },
        currentPage := 0, pageSize := 10 } = .error .typeError ∧
    (deliver (.ok demoTable)
        [({ search := some "Sh", currentPage := 0, pageSize := 10 } : LoadKey),
         { filter := some { sku := some { eq := some "UNKNOWN" } },
           currentPage := 0, pageSize := 10 }]
        { search := some "Sh", currentPage := 0, pageSize := 10 } =
      .resolved (.result { total := 2, offset := 0, limit := 10,
                           products := [rowToProduct ["S1", "Shirt", "x", "19.99", "img1"],
                                        rowToProduct ["S2", "Shoe", "x", "49.99", "img2"]] }) ∧
      deliver (.ok demoTable)
        [({ search := some "Sh", currentPage := 0, pageSize := 10 } : LoadKey),
         { filter := some { sku := some { eq := some "UNKNOWN" } },
           currentPage := 0, pageSize := 10 }]
        { filter := some { sku := some { eq := some "UNKNOWN" } },
          currentPage := 0, pageSize := 10 } = .resolved .nullv) :=
  ⟨by decide, by decide,
   claim4_failure_isolation (.ok demoTable) _ _ _ .typeError (by decide) (by decide)⟩

/-- C6 (code bug): a membership filter on `url_key` alone makes
`__searchProducts` throw a `TypeError` — the guard
`params.filter.sku.in || params.filter.url_key.in` dereferences the absent
`sku` entry — so the caller receives `null` even though a row matching the
supplied set exists; the `sku` membership path shows the intended
behaviour. -/
theorem claim6_url_key_in_crash :
    searchProducts (.ok demoTable)
      { filter := some { url_key := some { inVals := some ["S1"] } },
        currentPage := 0, pageSize := 10 } = .error .typeError ∧
    loadOutcome (.ok demoTable)
      { filter := some { url_key := some { inVals := some ["S1"] } },
        currentPage := 0, pageSize := 10 } = .nullv ∧
    "S1" ∈ demoTable.filterMap (fun r => List.get? (α := String) r 0) ∧
    searchProducts (.ok demoTable)
      { filter := some { sku := some { inVals := some ["S1"] } },
        currentPage := 0, pageSize := 10 } =
      .ok (some { total := 1, offset := 0, limit := 10,
                  products := [rowToProduct ["S1", "Shirt", "x", "19.99", "img1"]] }) :=
  ⟨by decide, by decide, by decide, by decide⟩

/-- C8 (counterexample): `JSON.stringify` preserves object-field insertion
order, so two key objects with the same fields and values but different
field order serialize to different CacheKeys; the in-order serialization
coincides with the loader's `cacheKeyFunction` on the structured key. -/
theorem claim8_counterexample :
    stringifyFlat [("currentPage", .inr 0), ("pageSize", .inr 10), ("search", .inl "Sh")] ≠
      stringifyFlat [("search", .inl "Sh"), ("currentPage", .inr 0), ("pageSize", .inr 10)] ∧
    List.Perm
      [("currentPage", (Sum.inr 0 : String ⊕ Int)), ("pageSize", .inr 10), ("search", .inl "Sh")]
      [("search", .inl "Sh"), ("currentPage", .inr 0), ("pageSize", .inr 10)] ∧
    stringifyFlat [("search", .inl "Sh"), ("currentPage", .inr 0), ("pageSize", .inr 10)] =
      cacheKeyFunction { search := some "Sh", currentPage := 0, pageSize := 10 } :=
  ⟨by decide, by decide, by decide⟩

/-- C8 (amended): for key objects with the canonical field order (the
structured LoadKey), `canonicalize(k1) = canonicalize(k2)` iff `k1` and
`k2` are field-wise equal; a different field order, however, yields a
different CacheKey (the serialization is insertion-order-preserving). -/
theorem claim8_canonicalize_iff (k1 k2 : LoadKey) :
    cacheKeyFunction k1 = cacheKeyFunction k2 ↔ k1 = k2 :=
  ckey_eq_iff

/-- C9 (counterexample): the `price.amount` of a produced record is the raw
price-column cell — a string, not a number: on the spec's first
demonstration row it is the string "19.99". -/
theorem claim9_counterexample :
    ((rowToProduct ["S1", "Shirt", "x", "19.99", "img1"]).price.amount).isNum = false ∧
    (rowToProduct ["S1", "Shirt", "x", "19.99", "img1"]).price.amount = .str "19.99" :=
  ⟨by decide, by decide⟩

/-- C9 (amended): the row-to-record mapping is fixed: identifier column to
`sku`, title column to `title` and to the synthesized `description`, price
column carried over verbatim (as the fetched string, with no numeric
conversion) under the hardcoded currency, image column to `image_url`, and
the constant placeholder pair `[1, 2]` as `categoryIds`. -/
theorem claim9_row_mapping (c0 c1 c2 c3 c4 : String) :
    rowToProduct [c0, c1, c2, c3, c4] =
      { sku := .str c0
        title := .str c1
        description := "Description for product " ++ c1
        price := { currency := "USD", amount := .str c3 }
        image_url := .str c4
        categoryIds := [1, 2] } := rfl

/-- C10 (confirmed): branch selection is the truthiness of `params.search`.
A non-empty `search` routes to the search branch and the key's `filter` is
ignored entirely (the outcome is invariant under replacing the filter);
an empty-string `search` is falsy and the key behaves exactly like one with
no `search` at all, falling through to filter handling. -/
theorem claim10_branch_truthiness (k : LoadKey) (s : String) :
    (k.search = some s → s ≠ "" →
      ∀ (b : Backend) (f2 : Option KeyFilter),
        searchProducts b k = searchProducts b { k with filter := f2 }) ∧
    (k.search = some "" →
      ∀ b : Backend, searchProducts b k = searchProducts b { k with search := none }) := by
  constructor
  · intro hs hne b f2
    obtain ⟨s0, f0, c0, p0, q0⟩ := k
    have hs0 : s0 = some s := hs
    subst hs0
    cases b with
    | tokenFail => rfl
    | fetchFail => rfl
    | ok table =>
      show searchCore table ⟨some s, f0, c0, p0, q0⟩ =
        searchCore table ⟨some s, f2, c0, p0, q0⟩
      simp only [searchCore]
      rw [if_neg hne, if_neg hne]
      rfl
  · intro hs b
    obtain ⟨s0, f0, c0, p0, q0⟩ := k
    have hs0 : s0 = some "" := hs
    subst hs0
    cases b with
    | tokenFail => rfl
    | fetchFail => rfl
    | ok table =>
      show searchCore table ⟨some "", f0, c0, p0, q0⟩ =
        searchCore table ⟨none, f0, c0, p0, q0⟩
      rfl

/-- C10 (witness): branch truthiness at concrete keys — a key carrying both
a non-empty search and a filter, and a key with an empty search string. -/
theorem claim10_branch_truthiness_witness :
    (searchProducts (.ok demoTable)
        { search := some "Sh",
          filter := some { sku := some { eq := some "S2" } },
          currentPage := 0, pageSize := 10 } =
      searchProducts (.ok demoTable)
        { search := some "Sh", filter := none, currentPage := 0, pageSize := 10 }) ∧
    (searchProducts (.ok demoTable)
        { search := some "",
          filter := some { sku := some { eq := some "S2" } },
          currentPage := 0, pageSize := 10 } =
      searchProducts (.ok demoTable)
        { search := none,
          filter := some { sku := some { eq := some "S2" } },
          currentPage := 0, pageSize := 10 }) :=
  ⟨(claim10_branch_truthiness
      { search := some "Sh",
        filter := some { sku := some { eq := some "S2" } },
        currentPage := 0, pageSize := 10 } "Sh").1 rfl (by decide) (.ok demoTable) none,
   (claim10_branch_truthiness
      { search := some "",
        filter := some { sku := some { eq := some "S2" } },
        currentPage := 0, pageSize := 10 } "").2 rfl (.ok demoTable)⟩

/-- C5 (confirmed): for a key with a non-empty `search` string (on a table
whose rows all carry a title cell), resolution returns exactly the rows
whose title (second column) contains the search term as a case-sensitive
substring — `total` is the match count, `offset` is
`currentPage * pageSize`, `limit` is `pageSize`, and `products` holds all
matches with no pagination slicing. -/
theorem claim5_search_semantics (table : List Row) (k : LoadKey) (s : String)
    (hs : k.search = some s) (hne : s ≠ "")
    (hwf : ∀ row ∈ table, 2 ≤ List.length (α := String) row) :
    searchProducts (.ok table) k =
      .ok (some { total := table.countP (fun row => includesStr (List.getD row 1 "") s)
                  offset := k.currentPage * k.pageSize
                  limit := k.pageSize
                  products := (table.filter
                    (fun row => includesStr (List.getD row 1 "") s)).map rowToProduct }) ∧
    ∀ row ∈ table,
      (includesStr (List.getD row 1 "") s = true ↔ s.data <:+: (List.getD row 1 "").data) := by
  constructor
  · simp only [searchProducts, searchProductsRun, searchCore, hs]
    rw [if_neg hne]
    have hany : (table.any fun row => (List.get? (α := String) row 1).isNone) = false := by
      rw [List.any_eq_false]
      intro row hrow
      have h2 := hwf row hrow
      cases hget : List.get? (α := String) row 1 with
      | some val => simp [hget]
      | none =>
        rw [List.get?_eq_none] at hget
        omega
    simp [hany, mkResult, List.countP_eq_length_filter]
    intro x hx
    have := hwf x hx
    omega
  · intro row hrow
    exact includesStr_iff _ _

/-- C5 (witness): the search theorem applied to the spec's scenario
`load({search:"Sh", currentPage:0, pageSize:10})` on the demonstration
table. -/
theorem claim5_search_semantics_witness :
    (({ search := some "Sh", currentPage := 0, pageSize := 10 } : LoadKey).search = some "Sh" ∧
      "Sh" ≠ "" ∧ ∀ row ∈ demoTable, 2 ≤ List.length (α := String) row) ∧
    (searchProducts (.ok demoTable) { search := some "Sh", currentPage := 0, pageSize := 10 } =
      .ok (some { total := demoTable.countP
                    (fun row => includesStr (List.getD row 1 "") "Sh")
                  offset := (0 : Int) * 10
                  limit := 10
                  products := (demoTable.filter
                    (fun row => includesStr (List.getD row 1 "") "Sh")).map rowToProduct }) ∧
      ∀ row ∈ demoTable,
        (includesStr (List.getD row 1 "") "Sh" = true ↔
          "Sh".data <:+: (List.getD row 1 "").data)) :=
  ⟨⟨rfl, by decide, by decide⟩,
   claim5_search_semantics demoTable { search := some "Sh", currentPage := 0, pageSize := 10 }
     "Sh" rfl (by decide) (by decide)⟩

/-- C7 (counterexample): the claim quantifies over every key with an
exact-match filter, but for `{filter: {sku: {in: ["x"]}, url_key: {eq: "S2"}}}`
the ternary `params.filter.sku ? params.filter.sku.eq : params.filter.url_key.eq`
selects the present `sku` entry, looks up `undefined`, finds nothing, and
throws — the caller receives `null` instead of the matching S2 row with
total 1 that the claim promises. -/
theorem claim7_counterexample :
    searchProducts (.ok demoTable)
      { filter := some { sku := some { inVals := some ["x"] },
                         url_key := some { eq := some "S2" } },
        currentPage := 0, pageSize := 10 } = .error .typeError ∧
    loadOutcome (.ok demoTable)
      { filter := some { sku := some { inVals := some ["x"] },
                         url_key := some { eq := some "S2" } },
        currentPage := 0, pageSize := 10 } = .nullv ∧
    "S2" ∈ demoTable.filterMap (fun r => List.get? (α := String) r 0) ∧
    searchProducts (.ok demoTable)
      { filter := some { sku := some { inVals := some ["x"] },
                         url_key := some { eq := some "S2" } },
        currentPage := 0, pageSize := 10 } ≠
      .ok (some { total := 1, offset := 0, limit := 10,
                  products := [rowToProduct ["S2", "Shoe", "x", "49.99", "img2"]] }) :=
  ⟨by decide, by decide, by decide, by decide⟩

/-- C7 (amended): for every key with falsy `search` that enters the
exact-match branch (some present filter entry has a truthy, non-empty
`eq`), the looked-up value is `eqKeySel f`: `filter.sku.eq` whenever a
`sku` entry is present — even one without `eq` — and `filter.url_key.eq`
only otherwise. If some row's identifier column equals the selected value
(`undefined` matching only rows with no first cell), resolution returns
exactly the first such row with total 1; if no row matches, resolution
fails with the thrown dereference and the loader's public `load()` result
for the key is `null`. A key whose only `eq` is the empty string is falsy
and never enters this branch. -/
theorem claim7_eq_branch_semantics (table : List Row) (k : LoadKey) (f : KeyFilter)
    (hsearch : k.search = none ∨ k.search = some "")
    (hf : k.filter = some f)
    (hcond : (eqTruthy f.sku || eqTruthy f.url_key) = true) :
    (∀ row, table.find? (fun r => decide (List.get? (α := String) r 0 = eqKeySel f)) = some row →
      searchProducts (.ok table) k =
        .ok (some { total := 1, offset := k.currentPage * k.pageSize,
                    limit := k.pageSize, products := [rowToProduct row] })) ∧
    (table.find? (fun r => decide (List.get? (α := String) r 0 = eqKeySel f)) = none →
      searchProducts (.ok table) k = .error .typeError ∧
      loadOutcome (.ok table) k = .nullv) := by
  have hcore : searchProducts (.ok table) k = filterBody table k := by
    rcases hsearch with h | h <;> simp [searchProducts, searchProductsRun, searchCore, h]
  have hpres : (f.sku.isNone && f.url_key.isNone) = false := by
    cases hs : f.sku with
    | some e => simp
    | none =>
      cases hu : f.url_key with
      | some u => simp
      | none => rw [hs, hu] at hcond; simp [eqTruthy] at hcond
  have hbody : filterBody table k =
      match table.find? (fun r => decide (List.get? (α := String) r 0 = eqKeySel f)) with
      | some row => .ok (some { total := 1, offset := k.currentPage * k.pageSize,
                                limit := k.pageSize, products := [rowToProduct row] })
      | none => .error .typeError := by
    simp [filterBody, hf, hpres, hcond]
  constructor
  · intro row hrow
    rw [hcore, hbody, hrow]
  · intro hmiss
    constructor
    · rw [hcore, hbody, hmiss]
    · simp only [loadOutcome, hcore, hbody, hmiss]

/-- C7 (witness): the amended theorem applied to the spec scenario
`filter:{sku:{eq:"S2"}}` on the demonstration table. -/
theorem claim7_eq_branch_semantics_witness :
    ((({ filter := some { sku := some { eq := some "S2" } },
         currentPage := 0, pageSize := 10 } : LoadKey).search = none ∨
      ({ filter := some { sku := some { eq := some "S2" } },
         currentPage := 0, pageSize := 10 } : LoadKey).search = some "") ∧
     (eqTruthy ({ sku := some { eq := some "S2" } } : KeyFilter).sku ||
       eqTruthy ({ sku := some { eq := some "S2" } } : KeyFilter).url_key) = true ∧
     demoTable.find? (fun r => decide (List.get? (α := String) r 0 =
       eqKeySel { sku := some { eq := some "S2" } })) =
       some ["S2", "Shoe", "x", "49.99", "img2"]) ∧
    searchProducts (.ok demoTable)
      { filter := some { sku := some { eq := some "S2" } },
        currentPage := 0, pageSize := 10 } =
      .ok (some { total := 1, offset := (0 : Int) * 10, limit := 10,
                  products := [rowToProduct ["S2", "Shoe", "x", "49.99", "img2"]] }) :=
  ⟨⟨Or.inl rfl, by decide, by decide⟩,
   (claim7_eq_branch_semantics demoTable
      { filter := some { sku := some { eq := some "S2" } },
        currentPage := 0, pageSize := 10 }
      { sku := some { eq := some "S2" } }
      (Or.inl rfl) rfl (by decide)).1
    ["S2", "Shoe", "x", "49.99", "img2"] (by decide)⟩
